import Mathlib

/-!
Verification development for the Error-Handler repository.

The JavaScript source is embedded shallowly: JS values become the inductive
type `JVal` (objects carry a class tag for `instanceof` dispatch and a
`frozen` flag recording `Object.freeze`), and each source function becomes a
Lean function over `JVal`.  Fallible builder operations return `Except`.
Platform builtins (`Date.parse`, string conversion, stack capture) are
modelled explicitly and marked as such in their doc comments.
-/

set_option autoImplicit false

/-- Class tag of a JS object, used to model `instanceof` dispatch:
plain object literals, native `Error` instances, and `AppError` instances
(`AppError extends Error`). -/
inductive JClass where
  | plain
  | errorC
  | appErrorC
  deriving DecidableEq, Repr

/-- Shallow embedding of a JavaScript value.  `obj`/`arr` carry a `frozen`
flag recording whether `Object.freeze` has been applied to that node
(freezing in JS is shallow, and so is the flag). `date` models a JS `Date`
instance, `none` standing for an Invalid Date (NaN time value). -/
inductive JVal where
  | null
  | undef
  | bool (b : Bool)
  | num (n : Int)
  | str (s : String)
  | date (ms : Option Int)
  | arr (frozen : Bool) (elems : List JVal)
  | obj (cls : JClass) (frozen : Bool) (fields : List (String × JVal))
  deriving Repr

namespace JVal

/-- JS truthiness. -/
def truthy : JVal → Bool
  | .null => false
  | .undef => false
  | .bool b => b
  | .num n => n != 0
  | .str s => s != ""
  | .date _ => true
  | .arr _ _ => true
  | .obj _ _ _ => true

/-- JS nullish test (`value == null`, i.e. `null` or `undefined`). -/
def nullish : JVal → Bool
  | .null => true
  | .undef => true
  | _ => false

/-- JS nullish coalescing `a ?? b`. -/
def nco (a b : JVal) : JVal :=
  if a.nullish then b else a

/-- Property read `v[k]`.  Absent properties give `undefined`; property
access on primitives gives `undefined` as well (boxing has no own
properties we use).  Reading a property of `null`/`undefined` throws in
JS; theorems quantifying over inputs carry hypotheses keeping them out of
that case where the source would throw. -/
def getField (v : JVal) (k : String) : JVal :=
  match v with
  | .obj _ _ fs => ((fs.find? (fun p => p.1 == k)).map (fun p => p.2)).getD .undef
  | _ => JVal.undef

/-- JS `k in v` restricted to own properties of objects. -/
def hasField (v : JVal) (k : String) : Bool :=
  match v with
  | .obj _ _ fs => fs.any (fun p => p.1 == k)
  | _ => false

/-- Field list produced by an object spread `\x7b...v\x7d`: an object's own
enumerable fields; anything without string-keyed fields spreads to nothing. -/
def spreadFields : JVal → List (String × JVal)
  | .obj _ _ fs => fs
  | _ => []

/-- Fresh plain object literal with the given fields. -/
def mkObj (fs : List (String × JVal)) : JVal :=
  .obj .plain false fs

/-- `Object.freeze` — sets the (shallow) frozen flag; primitives are
already frozen in JS and are returned unchanged. -/
def freeze : JVal → JVal
  | .arr _ xs => .arr true xs
  | .obj c _ fs => .obj c true fs
  | v => v

/-- `Object.isFrozen` — primitives count as frozen, containers report
their flag. -/
def frozenOf : JVal → Bool
  | .arr f _ => f
  | .obj _ f _ => f
  | _ => true

/-- `Array.isArray`. -/
def isArr : JVal → Bool
  | .arr _ _ => true
  | _ => false

/-- `typeof v === "object"` (true for `null`, arrays, dates and objects). -/
def typeofObject : JVal → Bool
  | .null => true
  | .date _ => true
  | .arr _ _ => true
  | .obj _ _ _ => true
  | _ => false

/-- `typeof v === "string"`. -/
def typeofString : JVal → Bool
  | .str _ => true
  | _ => false

/-- `v instanceof AppError`. -/
def isAppErrorInst : JVal → Bool
  | .obj .appErrorC _ _ => true
  | _ => false

/-- `v instanceof Error` (`AppError extends Error`). -/
def isErrorInst : JVal → Bool
  | .obj .errorC _ _ => true
  | .obj .appErrorC _ _ => true
  | _ => false

/-- The `isObject` helper of the deep-merge module:
`value !== null && typeof value === "object" && !Array.isArray(value)`.
JS `Date` instances satisfy it, matching the source. -/
def isObjectJS : JVal → Bool
  | .obj _ _ _ => true
  | .date _ => true
  | _ => false

/-- Elements of an array value (empty for non-arrays; only applied under
an `Array.isArray` guard). -/
def arrElems : JVal → List JVal
  | .arr _ xs => xs
  | _ => []

end JVal

/-- Modelled builtin: string conversion of a non-container value as
performed by template literals (`String(v)`). -/
def jsToStrPrim : JVal → String
  | .null => "null"
  | .undef => "undefined"
  | .bool b => if b then "true" else "false"
  | .num n => toString n
  | .str s => s
  | .date _ => "[date]"
  | .arr _ _ => ""
  | .obj _ _ _ => "[object Object]"

/-- Modelled builtin: string conversion as performed by template literals
(`String(v)`).  Arrays join their elements with commas (one level deep in
this model; null/undefined elements render empty, matching JS), objects
render as they do in JS. -/
def jsToStr : JVal → String
  | .arr _ xs => String.intercalate "," (xs.map (fun x =>
      match x with
      | .null => ""
      | .undef => ""
      | y => jsToStrPrim y))
  | v => jsToStrPrim v

/-- Modelled builtin: `String.prototype.trim` — strips leading and
trailing whitespace characters. -/
def jsTrim (s : String) : String :=
  String.mk ((s.data.dropWhile Char.isWhitespace).reverse.dropWhile Char.isWhitespace).reverse

/-- Modelled builtin: `Date.parse` on a string.  The model recognizes only
plain digit strings as parsable dates (yielding their numeric value as a
time value); every other string yields `none`, standing for NaN.  Claims
depend only on the parsable/unparsable distinction, never on which
concrete strings parse. -/
def jsDateParse (s : String) : Option Int :=
  if s ≠ "" && s.data.all Char.isDigit then some (Int.ofNat (s.toNat?.getD 0)) else none

/-- Modelled builtin: the time value of `new Date(v)` for a non-`Date`
argument (`none` = Invalid Date / NaN).  Numbers are taken as epoch
millis, strings are parsed, booleans/null coerce to 0/1, everything else
is invalid. -/
def jsNewDateMs : JVal → Option Int
  | .num n => some n
  | .str s => jsDateParse s
  | .date d => d
  | .bool b => some (if b then 1 else 0)
  | .null => some 0
  | _ => none

/-! ## src/utils/localization.js -/

/-- Translation of `cloneFallback` (`localization.js`):
produces the pair with each slot `fallback?.<slot> ?? null`. -/
def cloneFallback (fallback : JVal) : JVal :=
  JVal.mkObj
    [("fa", (fallback.getField "fa").nco .null),
     ("en", (fallback.getField "en").nco .null)]

/-- Translation of `ensureLocalizedText` (`localization.js`). -/
def ensureLocalizedText (value fallback : JVal) : JVal :=
  let normalizedFallback := cloneFallback fallback
  if value.nullish then normalizedFallback
  else
    match value with
    | .str s => JVal.mkObj [("fa", .str s), ("en", .str s)]
    | _ =>
      if value.typeofObject then
        JVal.mkObj
          [("fa", ((value.getField "fa").nco (value.getField "en")).nco
              (normalizedFallback.getField "fa")),
           ("en", ((value.getField "en").nco (value.getField "fa")).nco
              (normalizedFallback.getField "en"))]
      else normalizedFallback

/-- Translation of `cloneLocalizedMessages` (`localization.js`); the
omitted `fallback` argument defaults to an empty object. -/
def cloneLocalizedMessages (messages : JVal) : JVal :=
  JVal.mkObj
    [("user", ensureLocalizedText (messages.getField "user") (JVal.mkObj [])),
     ("original", ensureLocalizedText (messages.getField "original") (JVal.mkObj []))]

/-! ## src/constants.js -/

/-- Values of `ERROR_TYPES` (`constants.js`). -/
def ERROR_TYPES_values : List String :=
  ["network", "validation", "mapping", "permission", "component",
   "environment", "system", "unknown", "feature"]

/-- Values of `ERROR_LEVELS` (`constants.js`). -/
def ERROR_LEVELS_values : List String :=
  ["debug", "info", "warn", "error", "fatal"]

/-- `ERROR_LEVELS.ERROR`. -/
def ERROR_LEVELS_ERROR : JVal := .str "error"

/-- Translation of the `DEFAULT_LEVEL_BY_TYPE` table (`constants.js`). -/
def DEFAULT_LEVEL_BY_TYPE : List (String × String) :=
  [("network", "error"), ("validation", "warn"), ("mapping", "error"),
   ("permission", "warn"), ("component", "error"), ("environment", "fatal"),
   ("system", "error"), ("unknown", "error"), ("feature", "info")]

/-- The indexing `DEFAULT_LEVEL_BY_TYPE[type]` (undefined on a miss or a
non-string key). -/
def defaultLevelByType (type : JVal) : JVal :=
  match type with
  | .str t =>
    match (DEFAULT_LEVEL_BY_TYPE.find? (fun p => p.1 == t)).map (fun p => p.2) with
    | some l => .str l
    | none => .undef
  | _ => JVal.undef

/-- `DEFAULT_MESSAGES.user` (`constants.js`), a frozen bilingual pair. -/
def DEFAULT_MESSAGES_user : JVal :=
  .obj .plain true
    [("fa", .str "خطایی رخ داده است"), ("en", .str "An unexpected error occurred")]

/-- `DEFAULT_MESSAGES.original` (`constants.js`), identical text. -/
def DEFAULT_MESSAGES_original : JVal :=
  .obj .plain true
    [("fa", .str "خطایی رخ داده است"), ("en", .str "An unexpected error occurred")]

/-- The frozen `DEFAULT_MESSAGES` object (`constants.js`). -/
def DEFAULT_MESSAGES : JVal :=
  .obj .plain true
    [("user", DEFAULT_MESSAGES_user), ("original", DEFAULT_MESSAGES_original)]

/-! ## src/utils/deep-merge.js -/

/-- Key lookup `target[key]` on a raw field list (first occurrence, JS
objects have unique keys). -/
def lookupField (fields : List (String × JVal)) (k : String) : JVal :=
  ((fields.find? (fun p => p.1 == k)).map (fun p => p.2)).getD JVal.undef

/-- Property assignment `result[key] = v`: replaces the value in place when
the key is present, appends otherwise (JS insertion-order semantics). -/
def setKey (fields : List (String × JVal)) (k : String) (v : JVal) :
    List (String × JVal) :=
  if fields.any (fun p => p.1 == k) then
    fields.map (fun p => if p.1 == k then (k, v) else p)
  else fields ++ [(k, v)]

mutual
/-- Translation of `deepMerge` (`deep-merge.js`).  When both arguments
satisfy `isObject`, the result starts as a shallow copy of `target` and
each key of `source` is merged in; otherwise a shallow copy of an object
`source` (or `source` itself) is returned. -/
def deepMerge (target source : JVal) : JVal :=
  match target, source with
  | .obj _ _ tf, .obj _ _ sf => .obj .plain false (mergeInto tf tf sf)
  | _, _ =>
    if source.isObjectJS then JVal.mkObj source.spreadFields else source
termination_by sizeOf source

/-- The `for (const key of Object.keys(source))` loop body of `deepMerge`:
`tf` is the original target's field list (for `target[key]` reads), `acc`
the result being assigned into. -/
def mergeInto (tf acc : List (String × JVal)) (sf : List (String × JVal)) :
    List (String × JVal) :=
  match sf with
  | [] => acc
  | (k, sourceValue) :: rest =>
    let targetValue := lookupField tf k
    let merged :=
      if targetValue.isArr && sourceValue.isArr then
        JVal.arr false (targetValue.arrElems ++ sourceValue.arrElems)
      else if targetValue.isObjectJS && sourceValue.isObjectJS then
        deepMerge targetValue sourceValue
      else if sourceValue.isObjectJS then deepMerge (JVal.mkObj []) sourceValue
      else sourceValue
    mergeInto tf (setKey acc k merged) rest
termination_by sizeOf sf
end

/-- The value assigned for one source key in the `deepMerge` loop,
factored out for reasoning (definitionally the loop body's `let merged`). -/
def mergeValue (tv sv : JVal) : JVal :=
  if tv.isArr && sv.isArr then
    JVal.arr false (tv.arrElems ++ sv.arrElems)
  else if tv.isObjectJS && sv.isObjectJS then deepMerge tv sv
  else if sv.isObjectJS then deepMerge (JVal.mkObj []) sv
  else sv

/-! ## src/app-error.js -/

/-- Translation of `toArray` (`app-error.js`). -/
def toArray (value : JVal) : List JVal :=
  if value.nullish then []
  else match value with
    | .arr _ xs => xs
    | v => [v]

/-- Translation of `normalizeMessages` (`app-error.js`); returns the
`(user, original)` pair.  The `messages = \x7b\x7d` parameter default applies
to `undefined` only. -/
def normalizeMessages (messages : JVal) : JVal × JVal :=
  let m := match messages with | .undef => JVal.mkObj [] | v => v
  match m with
  | .str s =>
    (ensureLocalizedText (.str s) DEFAULT_MESSAGES_user,
     ensureLocalizedText (.str s) DEFAULT_MESSAGES_original)
  | _ =>
    (ensureLocalizedText ((m.getField "user").nco (m.getField "original"))
        DEFAULT_MESSAGES_user,
     ensureLocalizedText ((m.getField "original").nco (m.getField "user"))
        DEFAULT_MESSAGES_original)

/-- Translation of the per-entry body of `normalizeBreadcrumbs`
(`app-error.js`): the `.map` callback combined with the `.filter(Boolean)`
(`none` = dropped).  `now` is the ambient clock read by `Date.now()`. -/
def normalizeBreadcrumb (now : Int) (breadcrumb : JVal) : Option JVal :=
  if !breadcrumb.truthy then none
  else
    match breadcrumb with
    | .str s =>
      some (.obj .plain true
        [("message", ensureLocalizedText (.str s) DEFAULT_MESSAGES_user),
         ("category", .null), ("level", .null), ("data", .null),
         ("timestamp", .num now)])
    | b =>
      let message := b.getField "message"
      if !message.truthy then none
      else
        let timestamp := b.getField "timestamp"
        let timeValue := if timestamp.truthy then jsNewDateMs timestamp else some now
        some (.obj .plain true
          [("message", ensureLocalizedText message DEFAULT_MESSAGES_user),
           ("category", (b.getField "category").nco .null),
           ("level", (b.getField "level").nco .null),
           ("data", (b.getField "data").nco .null),
           ("timestamp", .num (timeValue.getD now))])

/-- Translation of `normalizeBreadcrumbs` (`app-error.js`). -/
def normalizeBreadcrumbs (now : Int) (breadcrumbs : JVal) : List JVal :=
  (toArray (match breadcrumbs with | .undef => JVal.arr false [] | v => v)).filterMap
    (normalizeBreadcrumb now)

/-- Translation of `normalizeCause` (`app-error.js`). -/
def normalizeCause (cause : JVal) : JVal :=
  if !cause.truthy then .null
  else if cause.isAppErrorInst then cause
  else if cause.isErrorInst then
    .obj .plain true
      [("name", cause.getField "name"),
       ("message", ensureLocalizedText (cause.getField "message") DEFAULT_MESSAGES_original),
       ("stack", cause.getField "stack")]
  else if cause.typeofObject && cause.hasField "message" then
    .obj .plain true
      (setKey cause.spreadFields "message"
        (ensureLocalizedText (cause.getField "message") DEFAULT_MESSAGES_original))
  else cause

/-- Field bag accepted by the `AppError` constructor (the destructured
options object).  Absent fields are `undefined`; the constructor applies
the source's destructuring defaults itself. -/
structure CtorBag where
  code : JVal := .undef
  type : JVal := .undef
  level : JVal := .undef
  messages : JVal := .undef
  reason : JVal := .undef
  descriptions : JVal := .undef
  service : JVal := .undef
  metadata : JVal := .undef
  breadcrumbs : JVal := .undef
  causes : JVal := .undef
  originalError : JVal := .undef
  timestamp : JVal := .undef
  stack : JVal := JVal.undef

/-- Destructuring default: `param = d` replaces `undefined` only. -/
def jsDefault (v d : JVal) : JVal :=
  match v with
  | .undef => d
  | w => w

/-- Translation of the `AppError` constructor (`app-error.js`), one record
field per `this.<field>` assignment.  `now` is the ambient clock (used by
`Date.now()` in breadcrumbs and by the `timestamp = new Date()` default).
The final `Object.freeze(this)` is the `frozen := true` flag on the object
built by `AppError.toJVal`.  `Error.captureStackTrace` is modelled as
producing an opaque captured-stack string. -/
structure AppErrorFields where
  messageF : JVal
  name : JVal
  code : JVal
  type : JVal
  level : JVal
  messages : JVal
  reason : JVal
  descriptions : JVal
  service : JVal
  metadata : JVal
  breadcrumbs : JVal
  causes : JVal
  originalError : JVal
  timestamp : JVal
  stack : JVal

/-- The constructor's level resolution:
`level ?? DEFAULT_LEVEL_BY_TYPE[type] ?? ERROR_LEVELS.ERROR`. -/
def levelResolution (level type : JVal) : JVal :=
  level.nco ((defaultLevelByType type).nco ERROR_LEVELS_ERROR)

/-- The constructor body (`app-error.js`, `AppError.constructor`). -/
def mkAppErrorFields (bag : CtorBag) (now : Int) : AppErrorFields :=
  let normalized := normalizeMessages bag.messages
  let user := normalized.1
  let original := normalized.2
  let reason := jsDefault bag.reason .null
  let descriptions := jsDefault bag.descriptions (JVal.arr false [])
  let service := jsDefault bag.service .null
  let metadata := jsDefault bag.metadata (JVal.mkObj [])
  let breadcrumbs := jsDefault bag.breadcrumbs (JVal.arr false [])
  let causes := jsDefault bag.causes (JVal.arr false [])
  let originalError := jsDefault bag.originalError .null
  let timestamp := jsDefault bag.timestamp (JVal.date (some now))
  let stack := jsDefault bag.stack .null
  let finalOriginalError := originalError.nco .null
  { messageF := .str (jsToStr (((user.getField "en").nco (user.getField "fa")).nco
      (DEFAULT_MESSAGES_user.getField "en")))
    name := .str "AppError"
    code := bag.code
    type := bag.type
    level := levelResolution bag.level bag.type
    messages := .obj .plain true
      [("user", JVal.freeze (JVal.mkObj user.spreadFields)),
       ("original", JVal.freeze (JVal.mkObj original.spreadFields))]
    reason := reason
    descriptions := JVal.freeze descriptions
    service := if service.truthy then JVal.freeze (JVal.mkObj service.spreadFields) else .null
    metadata := JVal.freeze (JVal.mkObj metadata.spreadFields)
    breadcrumbs := JVal.freeze (JVal.arr false (normalizeBreadcrumbs now breadcrumbs))
    causes := JVal.freeze (JVal.arr false
      (match causes with
       | .arr _ xs => (xs.map normalizeCause).filter (fun c => c.truthy)
       | _ => []))
    originalError := finalOriginalError
    timestamp := match timestamp with
      | .date d => .date d
      | v => .date (jsNewDateMs v)
    stack :=
      if stack.truthy then stack
      else if (finalOriginalError.getField "stack").truthy then
        finalOriginalError.getField "stack"
      else .str "captured-stack" }

/-- The frozen `AppError` instance as a JS object (class `appErrorC`,
frozen by the constructor's final `Object.freeze(this)`). -/
def AppErrorFields.toJVal (f : AppErrorFields) : JVal :=
  .obj .appErrorC true
    [("message", f.messageF), ("name", f.name), ("code", f.code),
     ("type", f.type), ("level", f.level), ("messages", f.messages),
     ("reason", f.reason), ("descriptions", f.descriptions),
     ("service", f.service), ("metadata", f.metadata),
     ("breadcrumbs", f.breadcrumbs), ("causes", f.causes),
     ("originalError", f.originalError), ("timestamp", f.timestamp),
     ("stack", f.stack)]

/-- `new AppError(bag)` at clock reading `now`. -/
def mkAppError (bag : CtorBag) (now : Int) : JVal :=
  (mkAppErrorFields bag now).toJVal

/-- Translation of `AppError.prototype.toString` (`app-error.js`). -/
def appErrorToString (e : JVal) : String :=
  let user := (e.getField "messages").getField "user"
  let userMessage := (user.getField "en").nco ((user.getField "fa").nco (.str ""))
  jsToStr (e.getField "name") ++ "(" ++ jsToStr (e.getField "code") ++ "): " ++
    jsToStr userMessage

/-! ## src/app-error.builder.js -/

/-- `Array.from(VALID_TYPES)` (`app-error.builder.js`). -/
def VALID_TYPES : List String := ERROR_TYPES_values

/-- `Array.from(VALID_LEVELS)` (`app-error.builder.js`). -/
def VALID_LEVELS : List String := ERROR_LEVELS_values

/-- Translation of `assertCode` (`app-error.builder.js`):
`typeof code !== "string" || !code.trim()` throws a `TypeError`. -/
def assertCode (code : JVal) : Except String Unit :=
  match code with
  | .str s =>
    if jsTrim s ≠ "" then .ok ()
    else .error "AppError code must be a non-empty string."
  | _ => .error "AppError code must be a non-empty string."

/-- Translation of `assertType` (`app-error.builder.js`):
membership in `VALID_TYPES` (a `Set` of strings, so non-strings miss). -/
def assertType (type : JVal) : Except String Unit :=
  match type with
  | .str t =>
    if VALID_TYPES.contains t then .ok ()
    else .error "AppError type must be one of the valid types."
  | _ => .error "AppError type must be one of the valid types."

/-- Translation of `assertLevel` (`app-error.builder.js`). -/
def assertLevel (level : JVal) : Except String Unit :=
  match level with
  | .str l =>
    if VALID_LEVELS.contains l then .ok ()
    else .error "AppError level must be one of the valid levels."
  | _ => .error "AppError level must be one of the valid levels."

/-- Translation of `ensureArray` (`app-error.builder.js`): nullish gives an
empty array, an array is returned as-is, anything else is wrapped in a
one-element array. -/
def ensureArray (value : JVal) : JVal :=
  if value.nullish then .arr false []
  else
    match value with
    | .arr f xs => .arr f xs
    | v => .arr false [v]

/-- Translation of `createDefaultMessages` (`app-error.builder.js`). -/
def createDefaultMessages : JVal := cloneLocalizedMessages DEFAULT_MESSAGES

/-- Translation of `normalizeMessagesInput` (`app-error.builder.js`). -/
def normalizeMessagesInput (value : JVal) : JVal :=
  if !value.truthy then createDefaultMessages
  else
    match value with
    | .str s =>
      JVal.mkObj
        [("user", ensureLocalizedText (.str s) DEFAULT_MESSAGES_user),
         ("original", ensureLocalizedText (.str s) DEFAULT_MESSAGES_original)]
    | v =>
      if v.typeofObject then
        JVal.mkObj
          [("user", ensureLocalizedText ((v.getField "user").nco (v.getField "original"))
              DEFAULT_MESSAGES_user),
           ("original", ensureLocalizedText ((v.getField "original").nco (v.getField "user"))
              DEFAULT_MESSAGES_original)]
      else createDefaultMessages

/-- The builder's private `state` object (`app-error.builder.js`). -/
structure BuilderState where
  code : JVal
  type : JVal
  level : JVal
  messages : JVal
  reason : JVal
  descriptions : JVal
  service : JVal
  metadata : JVal
  breadcrumbs : JVal
  causes : JVal
  originalError : JVal
  timestamp : JVal

/-- Translation of `createAppErrorBuilder` (`app-error.builder.js`): the
two asserts run immediately, then the initial state is staged.  `now` is
the clock read by the `timestamp: new Date()` initializer. -/
def createAppErrorBuilder (code type : JVal) (now : Int) : Except String BuilderState := do
  assertCode code
  assertType type
  pure
    { code := match code with | .str s => .str (jsTrim s) | v => v
      type := type
      level := (defaultLevelByType type).nco ERROR_LEVELS_ERROR
      messages := createDefaultMessages
      reason := .null
      descriptions := .arr false []
      service := .null
      metadata := JVal.mkObj []
      breadcrumbs := .arr false []
      causes := .arr false []
      originalError := .null
      timestamp := .date (some now) }

/-- Translation of `withMessages` (`app-error.builder.js`). -/
def withMessages (st : BuilderState) (messages : JVal) : BuilderState :=
  { st with messages := normalizeMessagesInput messages }

/-- Translation of `withReason` (`app-error.builder.js`). -/
def withReason (st : BuilderState) (reason : JVal) : Except String BuilderState :=
  if !reason.nullish && !reason.typeofString then
    .error "AppError reason must be a string."
  else .ok { st with reason := reason.nco .null }

/-- Translation of `withLevel` (`app-error.builder.js`). -/
def withLevel (st : BuilderState) (level : JVal) : Except String BuilderState := do
  assertLevel level
  pure { st with level := level }

/-- Translation of `withService` (`app-error.builder.js`); the `service`
parameter defaults to an empty object on `undefined`, and each
destructured field defaults to `null` when absent.  (Passing `null`
explicitly would throw on destructuring in JS; no claim exercises it.) -/
def withService (st : BuilderState) (service : JVal) : BuilderState :=
  let s := jsDefault service (JVal.mkObj [])
  let descriptor := JVal.mkObj
    [("name", jsDefault (s.getField "name") .null),
     ("method", jsDefault (s.getField "method") .null),
     ("args", jsDefault (s.getField "args") .null),
     ("operation", jsDefault (s.getField "operation") .null)]
  { st with service := descriptor }

/-- Translation of `withMetadata` (`app-error.builder.js`): the parameter
defaults to an empty object on `undefined`, then
`extra == null || typeof extra !== "object"` throws; otherwise the new
metadata is deep-merged into the accumulated state. -/
def withMetadata (st : BuilderState) (extra : JVal) : Except String BuilderState :=
  let e := jsDefault extra (JVal.mkObj [])
  if e.nullish || !e.typeofObject then
    .error "AppError metadata must be an object."
  else .ok { st with metadata := deepMerge st.metadata e }

/-- Translation of `withDescriptions` (`app-error.builder.js`). -/
def withDescriptions (st : BuilderState) (descriptions : JVal) : BuilderState :=
  { st with descriptions := ensureArray descriptions }

/-- Translation of `withBreadcrumbs` (`app-error.builder.js`). -/
def withBreadcrumbs (st : BuilderState) (breadcrumbs : JVal) : BuilderState :=
  { st with breadcrumbs := ensureArray breadcrumbs }

/-- Translation of `withCauses` (`app-error.builder.js`). -/
def withCauses (st : BuilderState) (causes : JVal) : BuilderState :=
  { st with causes := ensureArray causes }

/-- Translation of `withOriginalError` (`app-error.builder.js`):
`undefined` is a no-op, `null` clears, a non-`Error` throws. -/
def withOriginalError (st : BuilderState) (error : JVal) : Except String BuilderState :=
  match error with
  | .undef => .ok st
  | .null => .ok { st with originalError := .null }
  | e =>
    if e.isErrorInst then .ok { st with originalError := e }
    else .error "AppError originalError must be an instance of Error."

/-- `v instanceof Date`. -/
def JVal.isDate : JVal → Bool
  | .date _ => true
  | _ => false

/-- `Date.parse(v)` for an arbitrary argument: JS coerces the argument to
a string first (modelled builtin; see `jsDateParse`). -/
def jsDateParseVal (v : JVal) : Option Int := jsDateParse (jsToStr v)

/-- Translation of `withTimestamp` (`app-error.builder.js`):
`!(timestamp instanceof Date) && Number.isNaN(Date.parse(timestamp))`
throws; otherwise the state stores the date (or `new Date(timestamp)`). -/
def withTimestamp (st : BuilderState) (timestamp : JVal) : Except String BuilderState :=
  if !timestamp.isDate && jsDateParseVal timestamp = none then
    .error "AppError timestamp must be a Date or parsable date string."
  else .ok { st with timestamp :=
    match timestamp with
    | .date d => .date d
    | v => .date (jsNewDateMs v) }

/-- Translation of `build` (`app-error.builder.js`):
`Object.freeze(new AppError(state-fields))`; `build` itself never throws
(all validation happened in the setters), so it is a total function. -/
def buildB (st : BuilderState) (now : Int) : JVal :=
  JVal.freeze (mkAppError
    { code := st.code, type := st.type, level := st.level,
      messages := st.messages, reason := st.reason,
      descriptions := st.descriptions, service := st.service,
      metadata := st.metadata, breadcrumbs := st.breadcrumbs,
      causes := st.causes, originalError := st.originalError,
      timestamp := st.timestamp } now)

/-- Error test on builder results. -/
def isErrB {α : Type} : Except String α → Bool
  | .error _ => true
  | .ok _ => false

/-! ## Identity-annotated model of deep-merge (for the aliasing claim)

`deepMerge` again, translated from the same source, but over values whose
object and array nodes carry an identity tag, and with every
object/array-creating expression of the source (`\x7b...x\x7d` spreads,
`[...a, ...b]` concatenations, the result object) drawing a fresh tag from
a counter.  A node of the result whose tag already occurs in an input is
the very JS object of that input (aliasing); a fresh tag is a new
allocation. -/

/-- A JS value with heap identities on its container nodes. -/
inductive HVal where
  | undef
  | prim (n : Int)
  | arr (id : Nat) (elems : List HVal)
  | obj (id : Nat) (fields : List (String × HVal))

namespace HVal

/-- The deep-merge module's `isObject` over identity-annotated values. -/
def isObjectH : HVal → Bool
  | .obj _ _ => true
  | _ => false

/-- `Array.isArray`. -/
def isArrH : HVal → Bool
  | .arr _ _ => true
  | _ => false

/-- Elements of an array node. -/
def arrElemsH : HVal → List HVal
  | .arr _ xs => xs
  | _ => []

end HVal

/-- `target[key]` over identity-annotated field lists. -/
def lookupFieldH (fields : List (String × HVal)) (k : String) : HVal :=
  ((fields.find? (fun p => p.1 == k)).map (fun p => p.2)).getD HVal.undef

/-- `result[key] = v` over identity-annotated field lists. -/
def setKeyH (fields : List (String × HVal)) (k : String) (v : HVal) :
    List (String × HVal) :=
  if fields.any (fun p => p.1 == k) then
    fields.map (fun p => if p.1 == k then (k, v) else p)
  else fields ++ [(k, v)]

mutual
/-- `deepMerge` with explicit allocation: `n` is the next fresh identity;
returns the result together with the advanced counter. -/
def deepMergeAlloc (target source : HVal) (n : Nat) : HVal × Nat :=
  match target, source with
  | .obj _ tf, .obj _ sf =>
    let r := mergeIntoAlloc tf tf sf (n + 1)
    (.obj n r.1, r.2)
  | _, _ =>
    match source with
    | .obj _ sf => (.obj n sf, n + 1)
    | v => (v, n)
termination_by sizeOf source

/-- The key loop of `deepMerge` with explicit allocation. -/
def mergeIntoAlloc (tf acc : List (String × HVal)) (sf : List (String × HVal))
    (n : Nat) : List (String × HVal) × Nat :=
  match sf with
  | [] => (acc, n)
  | (k, sourceValue) :: rest =>
    let targetValue := lookupFieldH tf k
    let mergedN :=
      if targetValue.isArrH && sourceValue.isArrH then
        (HVal.arr n (targetValue.arrElemsH ++ sourceValue.arrElemsH), n + 1)
      else if targetValue.isObjectH && sourceValue.isObjectH then
        deepMergeAlloc targetValue sourceValue n
      else if sourceValue.isObjectH then
        deepMergeAlloc (.obj n []) sourceValue (n + 1)
      else (sourceValue, n)
    mergeIntoAlloc tf (setKeyH acc k mergedN.1) rest mergedN.2
termination_by sizeOf sf
end

mutual
/-- Identities of the mapping (object) nodes reachable in a value. -/
def objIdsH : HVal → List Nat
  | .undef => []
  | .prim _ => []
  | .arr _ xs => objIdsListH xs
  | .obj i fs => i :: objIdsFieldsH fs

/-- Mapping identities of a list of values. -/
def objIdsListH : List HVal → List Nat
  | [] => []
  | x :: xs => objIdsH x ++ objIdsListH xs

/-- Mapping identities of a field list. -/
def objIdsFieldsH : List (String × HVal) → List Nat
  | [] => []
  | p :: ps => objIdsH p.2 ++ objIdsFieldsH ps
end

/-- Spec-side definition (the refinement target for the `toString`
claim): the display-message fallback chain stated by the spec — the
`user` pair's primary (`en`) slot, falling back to the secondary (`fa`)
slot, falling back to the built-in default text. -/
def specDisplayMessage (e : JVal) : JVal :=
  let user := (e.getField "messages").getField "user"
  (user.getField "en").nco
    ((user.getField "fa").nco (DEFAULT_MESSAGES_user.getField "en"))

/-- A concrete valid builder state — the state staged by
`createAppErrorBuilder("X", "network")` at clock 0 — used as the receiver
of concrete setter calls in closed theorems. -/
def sampleState : BuilderState :=
  { code := .str "X", type := .str "network", level := .str "error",
    messages := createDefaultMessages, reason := .null,
    descriptions := .arr false [], service := .null,
    metadata := JVal.mkObj [], breadcrumbs := .arr false [],
    causes := .arr false [], originalError := .null,
    timestamp := .date (some 0) }

/-- Concrete constructor input for the breadcrumb-filtering scenario:
`breadcrumbs: [\x7bcategory:"x"\x7d, \x7bmessage:"ok"\x7d]`. -/
def bagC9 : CtorBag :=
  { code := .str "X", type := .str "network",
    breadcrumbs := .arr false
      [JVal.mkObj [("category", .str "x")], JVal.mkObj [("message", .str "ok")]] }

/-- Concrete constructor input with a nested metadata mapping. -/
def bagC1 : CtorBag :=
  { code := .str "X", type := .str "network", messages := .str "m",
    metadata := JVal.mkObj [("a", JVal.mkObj [("b", .num 1)])] }

/-- Concrete constructor input passing a bare (non-array) object as
`causes`. -/
def bagC3 : CtorBag :=
  { code := .str "X", type := .str "network",
    causes := JVal.mkObj [("message", .str "c")] }

/-- A concrete `AppError` instance used as a cause. -/
def appErrC4 : JVal :=
  mkAppError { code := .str "E0", type := .str "network", messages := .str "m" } 0

/-- A concrete native `Error` instance used as a cause. -/
def natErrC4 : JVal :=
  .obj .errorC false [("name", .str "Error"), ("message", .str "e"), ("stack", .str "stk")]

/-- Concrete constructor input for the cause-polymorphism scenario:
`causes: [anAppError, new Error("e"), \x7bmessage:"c",...\x7d, null]`. -/
def bagC4 : CtorBag :=
  { code := .str "X", type := .str "network",
    causes := .arr false
      [appErrC4, natErrC4, JVal.mkObj [("message", .str "c"), ("extra", .num 7)], .null] }

/-- Concrete constructor input with a falsy (but non-null) cause. -/
def bagC4drop : CtorBag :=
  { code := .str "X", type := .str "network", causes := .arr false [.num 0] }

/-- Keys of a field list, in order. -/
def keysOf (fields : List (String × JVal)) : List String :=
  fields.map Prod.fst

/-- The value `deepMerge` assigns for a source key absent from the
target: object values are deep-cloned via a merge against an empty
mapping, everything else is taken as-is (definitionally
`mergeValue .undef`). -/
def mergeAbsent (sv : JVal) : JVal :=
  if sv.isObjectJS then deepMerge (JVal.mkObj []) sv else sv

/-- `mergeAbsent` applied to every value of a field list. -/
def mapMergeAbsent (fields : List (String × JVal)) : List (String × JVal) :=
  fields.map (fun p => (p.1, mergeAbsent p.2))

/-- Concrete merge target with a nested mapping (identity-annotated). -/
def tgtC6 : HVal := .obj 0 [("a", .obj 1 [("b", .prim 1)])]

/-- Concrete merge source (identity-annotated). -/
def srcC6 : HVal := .obj 2 [("c", .prim 2)]

/-- Identity tag of a value's top node (0 for non-containers). -/
def topIdH : HVal → Nat
  | .obj i _ => i
  | .arr i _ => i
  | _ => 0

/-! # Helper lemmas -/

@[simp]
theorem JVal.nco_of_nullish_false (a b : JVal) (h : a.nullish = false) : a.nco b = a := by
  simp [JVal.nco, h]

@[simp]
theorem JVal.nco_of_nullish_true (a b : JVal) (h : a.nullish = true) : a.nco b = b := by
  simp [JVal.nco, h]

@[simp]
theorem JVal.frozenOf_freeze (v : JVal) : v.freeze.frozenOf = true := by
  cases v <;> rfl

/-- Every result of `ensureLocalizedText` is a fresh plain two-field
`fa`/`en` object. -/
theorem ensure_shape (v fb : JVal) :
    ∃ A B, ensureLocalizedText v fb = JVal.mkObj [("fa", A), ("en", B)] := by
  cases v <;> exact ⟨_, _, rfl⟩

/-- Claim C8 — `ensureLocalizedText` is idempotent on complete pairs: if
one application yields a pair with both slots defined (non-nullish), a
second application with any fallback returns the same pair. -/
theorem ensureLocalizedText_idempotent_on_complete (x fb fb2 : JVal)
    (hfa : ((ensureLocalizedText x fb).getField "fa").nullish = false)
    (hen : ((ensureLocalizedText x fb).getField "en").nullish = false) :
    ensureLocalizedText (ensureLocalizedText x fb) fb2 = ensureLocalizedText x fb := by
  obtain ⟨A, B, hAB⟩ := ensure_shape x fb
  rw [hAB] at hfa hen ⊢
  simp [JVal.getField, JVal.mkObj, List.find?] at hfa hen
  have h3 : ∀ X, A.nco X = A := fun X => JVal.nco_of_nullish_false A X hfa
  have h4 : ∀ X, B.nco X = B := fun X => JVal.nco_of_nullish_false B X hen
  simp [ensureLocalizedText, JVal.mkObj, JVal.nullish, JVal.typeofObject, JVal.getField,
    List.find?, h3, h4]

/-- Witness for C8 at a concrete complete pair. -/
theorem ensureLocalizedText_idempotent_on_complete_witness :
    ensureLocalizedText (ensureLocalizedText (.str "hi") .null) (.str "zz") =
      ensureLocalizedText (.str "hi") .null :=
  ensureLocalizedText_idempotent_on_complete (.str "hi") .null (.str "zz") rfl rfl

theorem JVal.nullish_nco_false (a b : JVal) (h : b.nullish = false) :
    (a.nco b).nullish = false := by
  cases hx : a.nullish <;> simp [JVal.nco, hx, h]

/-- The `en` slot of any `ensureLocalizedText` result is non-nullish
whenever the fallback's `en` slot is. -/
theorem ensure_en_nonnullish (v fb : JVal) (h : (fb.getField "en").nullish = false) :
    ((ensureLocalizedText v fb).getField "en").nullish = false := by
  have hslot : ((fb.getField "en").nco JVal.null).nullish = false := by
    rw [JVal.nco_of_nullish_false _ _ h]; exact h
  cases v with
  | null => exact hslot
  | undef => exact hslot
  | bool b => exact hslot
  | num n => exact hslot
  | str s => rfl
  | date d =>
    exact JVal.nullish_nco_false
      (((JVal.date d).getField "en").nco ((JVal.date d).getField "fa"))
      ((fb.getField "en").nco .null) hslot
  | arr f xs =>
    exact JVal.nullish_nco_false
      (((JVal.arr f xs).getField "en").nco ((JVal.arr f xs).getField "fa"))
      ((fb.getField "en").nco .null) hslot
  | obj c f fs =>
    exact JVal.nullish_nco_false
      (((JVal.obj c f fs).getField "en").nco ((JVal.obj c f fs).getField "fa"))
      ((fb.getField "en").nco .null) hslot

/-- The normalized `user` pair of the constructor is a two-slot object
whose `en` slot is non-nullish (the built-in default backs it). -/
theorem ensure_user_complete (X : JVal) :
    ∃ A B, ensureLocalizedText X DEFAULT_MESSAGES_user = JVal.mkObj [("fa", A), ("en", B)] ∧
      B.nullish = false := by
  obtain ⟨A, B, hAB⟩ := ensure_shape X DEFAULT_MESSAGES_user
  refine ⟨A, B, hAB, ?_⟩
  have h := ensure_en_nonnullish X DEFAULT_MESSAGES_user rfl
  rw [hAB] at h
  simpa [JVal.mkObj, JVal.getField, List.find?] using h

theorem user_shape (m : JVal) :
    ∃ A B, (normalizeMessages m).1 = JVal.mkObj [("fa", A), ("en", B)] ∧
      B.nullish = false := by
  cases m with
  | str s => exact ensure_user_complete (.str s)
  | undef =>
    exact ensure_user_complete
      (((JVal.mkObj []).getField "user").nco ((JVal.mkObj []).getField "original"))
  | null =>
    exact ensure_user_complete
      ((JVal.null.getField "user").nco (JVal.null.getField "original"))
  | bool b =>
    exact ensure_user_complete
      (((JVal.bool b).getField "user").nco ((JVal.bool b).getField "original"))
  | num n =>
    exact ensure_user_complete
      (((JVal.num n).getField "user").nco ((JVal.num n).getField "original"))
  | date d =>
    exact ensure_user_complete
      (((JVal.date d).getField "user").nco ((JVal.date d).getField "original"))
  | arr f xs =>
    exact ensure_user_complete
      (((JVal.arr f xs).getField "user").nco ((JVal.arr f xs).getField "original"))
  | obj c f fs =>
    exact ensure_user_complete
      (((JVal.obj c f fs).getField "user").nco ((JVal.obj c f fs).getField "original"))

/-- Claim C7 — for every constructed `AppError` (on inputs where the
constructor does not throw, i.e. `messages` is not `null`), the string
rendering equals `"AppError(<code>): <user-facing message>"`, where the
user-facing message is the same fallback chain as the display message:
the user pair's primary slot, then the secondary slot, then the built-in
default text (`specDisplayMessage`, written from the spec's words). -/
theorem appError_toString_fallback_chain (bag : CtorBag) (now : Int)
    (_hm : bag.messages ≠ JVal.null) :
    appErrorToString (mkAppError bag now) =
      "AppError(" ++ jsToStr bag.code ++ "): " ++
        jsToStr (specDisplayMessage (mkAppError bag now)) := by
  obtain ⟨A, B, hU, hB⟩ := user_shape bag.messages
  have h4 : ∀ X, B.nco X = B := fun X => JVal.nco_of_nullish_false B X hB
  simp [appErrorToString, specDisplayMessage, mkAppError, mkAppErrorFields,
    AppErrorFields.toJVal, JVal.getField, List.find?, JVal.mkObj, JVal.freeze,
    JVal.spreadFields, hU, h4, jsToStr, jsToStrPrim]

/-- Witness for C7 at a concrete construction. -/
theorem appError_toString_fallback_chain_witness :
    appErrorToString
        (mkAppError { code := .str "C", type := .str "network", messages := .str "down" } 0) =
      "AppError(" ++ jsToStr (JVal.str "C") ++ "): " ++
        jsToStr (specDisplayMessage
          (mkAppError { code := .str "C", type := .str "network", messages := .str "down" } 0)) :=
  appError_toString_fallback_chain
    { code := .str "C", type := .str "network", messages := .str "down" } 0 (by simp)

theorem bc_falsy (now : Int) (b : JVal) (hb : b.truthy = false) :
    normalizeBreadcrumb now b = none := by
  simp [normalizeBreadcrumb, hb]

theorem bc_no_message (now : Int) (b : JVal) (hb : b.truthy = true)
    (hs : b.typeofString = false) (hm : (b.getField "message").truthy = false) :
    normalizeBreadcrumb now b = none := by
  cases b <;> simp_all [normalizeBreadcrumb, JVal.typeofString, JVal.truthy, JVal.getField]

theorem bc_string (now : Int) (s : String) (hs : s ≠ "") :
    normalizeBreadcrumb now (.str s) = some (.obj .plain true
      [("message", ensureLocalizedText (.str s) DEFAULT_MESSAGES_user),
       ("category", .null), ("level", .null), ("data", .null),
       ("timestamp", .num now)]) := by
  simp [normalizeBreadcrumb, JVal.truthy, hs]

theorem bc_default_ts (now : Int) (b : JVal) (hb : b.truthy = true)
    (hs : b.typeofString = false) (hm : (b.getField "message").truthy = true)
    (hts : (b.getField "timestamp").truthy = false ∨
      jsNewDateMs (b.getField "timestamp") = none) :
    ∃ e, normalizeBreadcrumb now b = some e ∧ e.getField "timestamp" = .num now := by
  cases b
  case obj c f fs =>
    have hred : normalizeBreadcrumb now (.obj c f fs) = some (.obj .plain true
      [("message", ensureLocalizedText ((JVal.obj c f fs).getField "message")
          DEFAULT_MESSAGES_user),
       ("category", ((JVal.obj c f fs).getField "category").nco .null),
       ("level", ((JVal.obj c f fs).getField "level").nco .null),
       ("data", ((JVal.obj c f fs).getField "data").nco .null),
       ("timestamp", .num ((if ((JVal.obj c f fs).getField "timestamp").truthy
           then jsNewDateMs ((JVal.obj c f fs).getField "timestamp")
           else some now).getD now))]) := by
      simp [normalizeBreadcrumb, hm]
      rfl
    refine ⟨_, hred, ?_⟩
    rcases hts with h | h
    · simp [JVal.getField, List.find?] at h ⊢
      simp [h]
    · by_cases ht : ((JVal.obj c f fs).getField "timestamp").truthy = true
      · simp [JVal.getField, List.find?] at h ht ⊢
        simp [h, ht]
      · simp [JVal.getField, List.find?] at ht ⊢
        simp [ht]
  case str s => simp [JVal.typeofString] at hs
  all_goals simp [JVal.getField, JVal.truthy] at hm

/-- Claim C9 — breadcrumb normalization never raises (it is a total
function by construction): a falsy entry is dropped; a non-string entry
whose `message` is missing/falsy is dropped, not defaulted; a string
entry becomes a synthetic entry timestamped at capture time; an entry
whose `timestamp` is absent (falsy) or unparsable gets the capture time;
and the concrete construction with
`breadcrumbs: [\x7bcategory:"x"\x7d, \x7bmessage:"ok"\x7d]` yields exactly the one
breadcrumb that has a message. -/
theorem breadcrumb_normalization_graceful :
    (∀ (now : Int) (b : JVal), b.truthy = false → normalizeBreadcrumb now b = none) ∧
    (∀ (now : Int) (b : JVal), b.truthy = true → b.typeofString = false →
      (b.getField "message").truthy = false → normalizeBreadcrumb now b = none) ∧
    (∀ (now : Int) (s : String), s ≠ "" → normalizeBreadcrumb now (.str s) =
      some (.obj .plain true
        [("message", ensureLocalizedText (.str s) DEFAULT_MESSAGES_user),
         ("category", .null), ("level", .null), ("data", .null),
         ("timestamp", .num now)])) ∧
    (∀ (now : Int) (b : JVal), b.truthy = true → b.typeofString = false →
      (b.getField "message").truthy = true →
      ((b.getField "timestamp").truthy = false ∨
        jsNewDateMs (b.getField "timestamp") = none) →
      ∃ e, normalizeBreadcrumb now b = some e ∧ e.getField "timestamp" = .num now) ∧
    (mkAppError bagC9 7).getField "breadcrumbs" =
      .arr true [.obj .plain true
        [("message", .obj .plain false [("fa", .str "ok"), ("en", .str "ok")]),
         ("category", .null), ("level", .null), ("data", .null),
         ("timestamp", .num 7)]] :=
  ⟨bc_falsy, bc_no_message, bc_string, bc_default_ts, rfl⟩

/-- Witness for C9: the dropping, filtering and synthetic-entry clauses at
concrete inputs. -/
theorem breadcrumb_normalization_graceful_witness :
    normalizeBreadcrumb 0 JVal.null = none ∧
    normalizeBreadcrumb 3 (JVal.mkObj [("category", .str "x")]) = none ∧
    normalizeBreadcrumb 5 (.str "hi") = some (.obj .plain true
      [("message", ensureLocalizedText (.str "hi") DEFAULT_MESSAGES_user),
       ("category", .null), ("level", .null), ("data", .null),
       ("timestamp", .num 5)]) :=
  ⟨breadcrumb_normalization_graceful.1 0 .null rfl,
   breadcrumb_normalization_graceful.2.1 3 (JVal.mkObj [("category", .str "x")]) rfl rfl rfl,
   breadcrumb_normalization_graceful.2.2.1 5 "hi" (by decide)⟩

theorem getField_mkAppError_causes (bag : CtorBag) (now : Int) :
    (mkAppError bag now).getField "causes" = JVal.freeze (JVal.arr false
      (match jsDefault bag.causes (JVal.arr false []) with
       | .arr _ xs => (xs.map normalizeCause).filter (fun c => c.truthy)
       | _ => [])) := rfl

theorem getField_mkAppError_metadata (bag : CtorBag) (now : Int) :
    (mkAppError bag now).getField "metadata" =
      JVal.freeze (JVal.mkObj (jsDefault bag.metadata (JVal.mkObj [])).spreadFields) := rfl

theorem getField_mkAppError_service (bag : CtorBag) (now : Int) :
    (mkAppError bag now).getField "service" =
      (if (jsDefault bag.service .null).truthy then
        JVal.freeze (JVal.mkObj (jsDefault bag.service .null).spreadFields)
      else .null) := rfl

theorem getField_mkAppError_breadcrumbs (bag : CtorBag) (now : Int) :
    (mkAppError bag now).getField "breadcrumbs" =
      JVal.freeze (JVal.arr false
        (normalizeBreadcrumbs now (jsDefault bag.breadcrumbs (JVal.arr false [])))) := rfl

theorem bc_entry_frozen (now : Int) (b e : JVal) (h : normalizeBreadcrumb now b = some e) :
    e.frozenOf = true := by
  unfold normalizeBreadcrumb at h
  split at h
  · exact absurd h (by simp)
  · split at h
    · injection h with h; subst h; rfl
    · dsimp only at h
      split at h
      · exact absurd h (by simp)
      · injection h with h; subst h; rfl

/-- Counterexample for C1: the constructor's freeze is shallow — a mapping
nested inside `metadata` is reachable from the constructed instance but is
not frozen, so it can still be mutated after construction. -/
theorem appError_nested_metadata_not_frozen :
    ((mkAppError bagC1 0).getField "metadata").getField "a" =
      JVal.mkObj [("b", .num 1)] ∧
    (JVal.mkObj [("b", .num 1)]).frozenOf = false :=
  ⟨rfl, rfl⟩

/-- Claim C1 (amended) — the constructed instance and each directly-held
container are frozen: the instance itself, the `messages` object and both
localized pairs, the `descriptions` array, the `service` copy (when
present), the top-level `metadata` mapping, the `breadcrumbs` array and
each breadcrumb entry, and the `causes` array.  The freeze is shallow:
mappings nested deeper (e.g. inside `metadata`) are not frozen — see the
counterexample. -/
theorem appError_shallow_freeze_invariant (bag : CtorBag) (now : Int)
    (_hm : bag.messages ≠ JVal.null) :
    (mkAppError bag now).frozenOf = true ∧
    ((mkAppError bag now).getField "messages").frozenOf = true ∧
    (((mkAppError bag now).getField "messages").getField "user").frozenOf = true ∧
    (((mkAppError bag now).getField "messages").getField "original").frozenOf = true ∧
    ((mkAppError bag now).getField "descriptions").frozenOf = true ∧
    ((mkAppError bag now).getField "service").frozenOf = true ∧
    ((mkAppError bag now).getField "metadata").frozenOf = true ∧
    ((mkAppError bag now).getField "breadcrumbs").frozenOf = true ∧
    (∀ b ∈ ((mkAppError bag now).getField "breadcrumbs").arrElems, b.frozenOf = true) ∧
    ((mkAppError bag now).getField "causes").frozenOf = true := by
  refine ⟨rfl, rfl, ?_, ?_, ?_, ?_, ?_, ?_, ?_, ?_⟩
  · obtain ⟨A, B, hU, _⟩ := user_shape bag.messages
    simp [mkAppError, mkAppErrorFields, AppErrorFields.toJVal, JVal.getField, List.find?,
      JVal.mkObj, hU, JVal.freeze, JVal.frozenOf]
  · obtain ⟨A, B, hU, _⟩ := user_shape bag.messages
    simp [mkAppError, mkAppErrorFields, AppErrorFields.toJVal, JVal.getField, List.find?,
      JVal.mkObj, hU, JVal.freeze, JVal.frozenOf]
  · show (JVal.freeze (jsDefault bag.descriptions (JVal.arr false []))).frozenOf = true
    exact JVal.frozenOf_freeze _
  · rw [getField_mkAppError_service]
    split
    · exact JVal.frozenOf_freeze _
    · rfl
  · rw [getField_mkAppError_metadata]
    exact JVal.frozenOf_freeze _
  · rw [getField_mkAppError_breadcrumbs]
    exact JVal.frozenOf_freeze _
  · rw [getField_mkAppError_breadcrumbs]
    intro b hb
    have hb' : b ∈ normalizeBreadcrumbs now (jsDefault bag.breadcrumbs (JVal.arr false [])) := hb
    obtain ⟨a, _, ha⟩ := List.mem_filterMap.mp hb'
    exact bc_entry_frozen now a b ha
  · rw [getField_mkAppError_causes]
    exact JVal.frozenOf_freeze _

/-- Witness for C1 (amended) at a concrete construction. -/
theorem appError_shallow_freeze_invariant_witness :
    (mkAppError bagC1 0).frozenOf = true ∧
    ((mkAppError bagC1 0).getField "metadata").frozenOf = true :=
  ⟨(appError_shallow_freeze_invariant bagC1 0 (by simp [bagC1])).1,
   (appError_shallow_freeze_invariant bagC1 0 (by simp [bagC1])).2.2.2.2.2.2.1⟩

theorem c3_ctor_strict (bag : CtorBag) (now : Int) (hc : bag.causes.isArr = false) :
    (mkAppError bag now).getField "causes" = .arr true [] := by
  rw [getField_mkAppError_causes]
  cases hv : bag.causes <;> simp_all [jsDefault, JVal.isArr, JVal.freeze]

/-- Claim C3 — the asymmetric coercion policy for `causes`: the
constructor turns every non-array `causes` input (including a bare
object) into an empty sequence, while the builder's `withCauses` wraps a
bare non-nullish value into a one-element sequence and nullish into an
empty one; concretely, building with `withCauses(\x7bmessage:"c"\x7d)` yields
one cause while direct construction with `causes: \x7bmessage:"c"\x7d` yields
zero. -/
theorem causes_coercion_asymmetry :
    (∀ (bag : CtorBag) (now : Int), bag.causes.isArr = false →
      (mkAppError bag now).getField "causes" = .arr true []) ∧
    (∀ v : JVal, v.nullish = true → ensureArray v = .arr false []) ∧
    (∀ v : JVal, v.nullish = false → v.isArr = false → ensureArray v = .arr false [v]) ∧
    (buildB (withCauses sampleState (JVal.mkObj [("message", .str "c")])) 0).getField
        "causes" =
      .arr true [.obj .plain true
        [("message", .obj .plain false [("fa", .str "c"), ("en", .str "c")])]] ∧
    (mkAppError bagC3 0).getField "causes" = .arr true [] := by
  refine ⟨c3_ctor_strict, ?_, ?_, rfl, rfl⟩
  · intro v h
    cases v <;> simp_all [ensureArray, JVal.nullish]
  · intro v h1 h2
    cases v <;> simp_all [ensureArray, JVal.nullish, JVal.isArr]

/-- Witness for C3: the strict-constructor clause at a bare object, and
the builder clauses at `null` and at a bare object. -/
theorem causes_coercion_asymmetry_witness :
    (mkAppError bagC3 3).getField "causes" = .arr true [] ∧
    ensureArray .null = .arr false [] ∧
    ensureArray (JVal.mkObj [("message", .str "c")]) =
      .arr false [JVal.mkObj [("message", .str "c")]] :=
  ⟨causes_coercion_asymmetry.1 bagC3 3 rfl,
   causes_coercion_asymmetry.2.1 .null rfl,
   causes_coercion_asymmetry.2.2.1 (JVal.mkObj [("message", .str "c")]) rfl rfl⟩

/-- Counterexample for C4: a falsy but non-null cause entry (the number
0) is dropped by `normalizeCause`, not passed through verbatim as the
claim's catch-all clause states. -/
theorem falsy_cause_dropped_not_verbatim :
    (mkAppError bagC4drop 0).getField "causes" = .arr true [] ∧
    (mkAppError bagC4drop 0).getField "causes" ≠ .arr true [.num 0] := by
  have h0 : (mkAppError bagC4drop 0).getField "causes" = .arr true [] := rfl
  refine ⟨h0, ?_⟩
  rw [h0]
  simp

/-- Claim C4 (amended) — the cause polymorphism: on the concrete list
`[anAppError, new Error("e"), \x7bmessage:"c",...\x7d, null]` the result has
length 3 in input order, with the `AppError` passed through by identity,
the native error wrapped as name/localized-message/stack, and the plain
object keeping its other fields with `message` localized in place; an
`AppError` instance is always passed through unchanged; any *truthy*
value of none of the recognized shapes passes through verbatim; and falsy
entries (null, undefined, 0, "", false) are dropped, not passed through.
-/
theorem cause_polymorphism_normalization :
    (mkAppError bagC4 5).getField "causes" = .arr true
      [appErrC4,
       .obj .plain true [("name", .str "Error"),
         ("message", .obj .plain false [("fa", .str "e"), ("en", .str "e")]),
         ("stack", .str "stk")],
       .obj .plain true [("message", .obj .plain false [("fa", .str "c"), ("en", .str "c")]),
         ("extra", .num 7)]] ∧
    (∀ c : JVal, c.isAppErrorInst = true → normalizeCause c = c) ∧
    (∀ c : JVal, c.truthy = true → c.isAppErrorInst = false → c.isErrorInst = false →
      (c.typeofObject = false ∨ c.hasField "message" = false) → normalizeCause c = c) ∧
    (∀ c : JVal, c.truthy = false → normalizeCause c = .null) := by
  refine ⟨rfl, ?_, ?_, ?_⟩
  · intro c h
    cases c <;> try simp_all [JVal.isAppErrorInst]
    rename_i cls f fs
    cases cls <;> simp_all [normalizeCause, JVal.isAppErrorInst, JVal.truthy]
  · intro c h1 h2 h3 h4
    rcases h4 with h | h <;> simp [normalizeCause, h1, h2, h3, h]
  · intro c h
    simp [normalizeCause, h]

/-- Witness for C4 (amended): identity on a concrete `AppError` cause, a
verbatim truthy primitive, and a dropped falsy entry. -/
theorem cause_polymorphism_normalization_witness :
    normalizeCause appErrC4 = appErrC4 ∧
    normalizeCause (.str "why") = .str "why" ∧
    normalizeCause (.num 0) = .null :=
  ⟨cause_polymorphism_normalization.2.1 appErrC4 rfl,
   cause_polymorphism_normalization.2.2.1 (.str "why") rfl rfl rfl (Or.inl rfl),
   cause_polymorphism_normalization.2.2.2 (.num 0) rfl⟩

/-- The state staged by a successful `createAppErrorBuilder(code, type)`. -/
def initialState (s t : String) (now : Int) : BuilderState :=
  { code := .str (jsTrim s), type := .str t,
    level := (defaultLevelByType (.str t)).nco ERROR_LEVELS_ERROR,
    messages := createDefaultMessages, reason := .null,
    descriptions := .arr false [], service := .null, metadata := JVal.mkObj [],
    breadcrumbs := .arr false [], causes := .arr false [],
    originalError := .null, timestamp := .date (some now) }

theorem createAppErrorBuilder_ok (s t : String) (now : Int)
    (hs : jsTrim s ≠ "") (ht : VALID_TYPES.contains t = true) :
    createAppErrorBuilder (.str s) (.str t) now = .ok (initialState s t now) := by
  have ht' : t ∈ VALID_TYPES := by simpa using ht
  simp [createAppErrorBuilder, assertCode, assertType, hs, ht', initialState,
    Bind.bind, Except.bind, pure, Except.pure]

theorem buildB_code (st : BuilderState) (now : Int) :
    (buildB st now).getField "code" = st.code := rfl

theorem c10_main (s : String) (type : JVal) (now now2 : Int)
    (hok : ∃ st, createAppErrorBuilder (.str s) type now = .ok st) :
    (createAppErrorBuilder (.str s) type now).map
      (fun st => (buildB st now2).getField "code") = .ok (.str (jsTrim s)) := by
  obtain ⟨st, hst⟩ := hok
  by_cases hs : jsTrim s = ""
  · simp [createAppErrorBuilder, assertCode, hs, Bind.bind, Except.bind] at hst
  · cases type with
    | str t =>
      by_cases ht : VALID_TYPES.contains t = true
      · rw [createAppErrorBuilder_ok s t now hs ht]
        simp [Except.map, buildB_code, initialState]
      · have ht' : ¬ t ∈ VALID_TYPES := by simpa using ht
        simp [createAppErrorBuilder, assertCode, assertType, hs, ht',
          Bind.bind, Except.bind] at hst
    | null =>
      simp [createAppErrorBuilder, assertCode, assertType, hs, Bind.bind, Except.bind] at hst
    | undef =>
      simp [createAppErrorBuilder, assertCode, assertType, hs, Bind.bind, Except.bind] at hst
    | bool b =>
      simp [createAppErrorBuilder, assertCode, assertType, hs, Bind.bind, Except.bind] at hst
    | num n =>
      simp [createAppErrorBuilder, assertCode, assertType, hs, Bind.bind, Except.bind] at hst
    | date d =>
      simp [createAppErrorBuilder, assertCode, assertType, hs, Bind.bind, Except.bind] at hst
    | arr f xs =>
      simp [createAppErrorBuilder, assertCode, assertType, hs, Bind.bind, Except.bind] at hst
    | obj c f fs =>
      simp [createAppErrorBuilder, assertCode, assertType, hs, Bind.bind, Except.bind] at hst

theorem c10_reject (s : String) (type : JVal) (now : Int) (hs : jsTrim s = "") :
    isErrB (createAppErrorBuilder (.str s) type now) = true := by
  simp [createAppErrorBuilder, assertCode, hs, isErrB, Bind.bind, Except.bind]

/-- Claim C10 — the builder trims the code: whenever
`createAppErrorBuilder` accepts a code string, the built `AppError`'s
`code` equals that string with leading/trailing whitespace removed; a
whitespace-only code is rejected at builder creation; and the padded code
`"  X  "` concretely yields `"X"`. -/
theorem builder_trims_code :
    (∀ (s : String) (type : JVal) (now now2 : Int),
      (∃ st, createAppErrorBuilder (.str s) type now = .ok st) →
      (createAppErrorBuilder (.str s) type now).map
        (fun st => (buildB st now2).getField "code") = .ok (.str (jsTrim s))) ∧
    (∀ (s : String) (type : JVal) (now : Int), jsTrim s = "" →
      isErrB (createAppErrorBuilder (.str s) type now) = true) ∧
    (createAppErrorBuilder (.str "  X  ") (.str "network") 0).map
      (fun st => (buildB st 0).getField "code") = .ok (.str "X") :=
  ⟨c10_main, c10_reject, rfl⟩

/-- Witness for C10 at concrete inputs: the padded code and a
whitespace-only rejection. -/
theorem builder_trims_code_witness :
    (createAppErrorBuilder (.str "  X  ") (.str "network") 0).map
      (fun st => (buildB st 0).getField "code") = .ok (.str (jsTrim "  X  ")) ∧
    isErrB (createAppErrorBuilder (.str "   ") (.str "network") 5) = true :=
  ⟨builder_trims_code.1 "  X  " (.str "network") 0 0 ⟨initialState "  X  " "network" 0, rfl⟩,
   builder_trims_code.2.1 "   " (.str "network") 5 rfl⟩
theorem createErr_iff (code type : JVal) (now : Int) :
    isErrB (createAppErrorBuilder code type now) = true ↔
      ¬((∃ s, code = .str s ∧ jsTrim s ≠ "") ∧ (∃ t, type = .str t ∧ t ∈ VALID_TYPES)) := by
  constructor
  · intro h hvalid
    obtain ⟨⟨s, hcs, hs⟩, ⟨t, hct, ht⟩⟩ := hvalid
    subst hcs; subst hct
    rw [createAppErrorBuilder_ok s t now hs (by simpa using ht)] at h
    simp [isErrB] at h
  · intro h
    cases code with
    | str s =>
      by_cases hs : jsTrim s = ""
      · exact c10_reject s type now hs
      · cases type with
        | str t =>
          by_cases ht : t ∈ VALID_TYPES
          · exact absurd ⟨⟨s, rfl, hs⟩, ⟨t, rfl, ht⟩⟩ h
          · simp [createAppErrorBuilder, assertCode, assertType, isErrB, hs, ht,
              Bind.bind, Except.bind]
        | null =>
          simp [createAppErrorBuilder, assertCode, assertType, isErrB, hs,
            Bind.bind, Except.bind]
        | undef =>
          simp [createAppErrorBuilder, assertCode, assertType, isErrB, hs,
            Bind.bind, Except.bind]
        | bool b =>
          simp [createAppErrorBuilder, assertCode, assertType, isErrB, hs,
            Bind.bind, Except.bind]
        | num n =>
          simp [createAppErrorBuilder, assertCode, assertType, isErrB, hs,
            Bind.bind, Except.bind]
        | date d =>
          simp [createAppErrorBuilder, assertCode, assertType, isErrB, hs,
            Bind.bind, Except.bind]
        | arr f xs =>
          simp [createAppErrorBuilder, assertCode, assertType, isErrB, hs,
            Bind.bind, Except.bind]
        | obj c f fs =>
          simp [createAppErrorBuilder, assertCode, assertType, isErrB, hs,
            Bind.bind, Except.bind]
    | null => simp [createAppErrorBuilder, assertCode, isErrB, Bind.bind, Except.bind]
    | undef => simp [createAppErrorBuilder, assertCode, isErrB, Bind.bind, Except.bind]
    | bool b => simp [createAppErrorBuilder, assertCode, isErrB, Bind.bind, Except.bind]
    | num n => simp [createAppErrorBuilder, assertCode, isErrB, Bind.bind, Except.bind]
    | date d => simp [createAppErrorBuilder, assertCode, isErrB, Bind.bind, Except.bind]
    | arr f xs => simp [createAppErrorBuilder, assertCode, isErrB, Bind.bind, Except.bind]
    | obj c f fs => simp [createAppErrorBuilder, assertCode, isErrB, Bind.bind, Except.bind]

theorem withLevel_isErr_iff (st : BuilderState) (l : JVal) :
    isErrB (withLevel st l) = true ↔ ¬∃ v, l = .str v ∧ v ∈ VALID_LEVELS := by
  cases l with
  | str v =>
    by_cases hv : v ∈ VALID_LEVELS <;>
      simp [withLevel, assertLevel, isErrB, hv, Bind.bind, Except.bind, pure, Except.pure]
  | null => simp [withLevel, assertLevel, isErrB, Bind.bind, Except.bind]
  | undef => simp [withLevel, assertLevel, isErrB, Bind.bind, Except.bind]
  | bool b => simp [withLevel, assertLevel, isErrB, Bind.bind, Except.bind]
  | num n => simp [withLevel, assertLevel, isErrB, Bind.bind, Except.bind]
  | date d => simp [withLevel, assertLevel, isErrB, Bind.bind, Except.bind]
  | arr f xs => simp [withLevel, assertLevel, isErrB, Bind.bind, Except.bind]
  | obj c f fs => simp [withLevel, assertLevel, isErrB, Bind.bind, Except.bind]

theorem withReason_isErr (st : BuilderState) (r : JVal) :
    isErrB (withReason st r) = (!r.nullish && !r.typeofString) := by
  cases r <;> simp [withReason, isErrB, JVal.nullish, JVal.typeofString]

theorem withMetadata_isErr_iff (st : BuilderState) (m : JVal) :
    isErrB (withMetadata st m) = true ↔
      (m = .null ∨ (m.nullish = false ∧ m.typeofObject = false)) := by
  cases m <;> simp [withMetadata, jsDefault, isErrB, JVal.nullish, JVal.typeofObject, JVal.mkObj]

theorem withOriginalError_isErr_iff (st : BuilderState) (e : JVal) :
    isErrB (withOriginalError st e) = true ↔
      (e ≠ .undef ∧ e ≠ .null ∧ e.isErrorInst = false) := by
  cases e with
  | obj c f fs => cases c <;> simp [withOriginalError, isErrB, JVal.isErrorInst]
  | null => simp [withOriginalError, isErrB]
  | undef => simp [withOriginalError, isErrB]
  | bool b => simp [withOriginalError, isErrB, JVal.isErrorInst]
  | num n => simp [withOriginalError, isErrB, JVal.isErrorInst]
  | str s => simp [withOriginalError, isErrB, JVal.isErrorInst]
  | date d => simp [withOriginalError, isErrB, JVal.isErrorInst]
  | arr f xs => simp [withOriginalError, isErrB, JVal.isErrorInst]

theorem withTimestamp_isErr_iff (st : BuilderState) (t : JVal) :
    isErrB (withTimestamp st t) = true ↔
      (t.isDate = false ∧ jsDateParseVal t = none) := by
  by_cases hd : t.isDate = true
  · simp [withTimestamp, isErrB, hd]
  · have hd' : t.isDate = false := by simpa using hd
    by_cases hp : jsDateParseVal t = none <;>
      simp [withTimestamp, isErrB, hd', hp]

/-- Counterexample for C2: `withMetadata` does not raise on an array,
although an array is not a mapping (the deep-merge module's own
`isObject` rejects it) — `typeof [] === "object"`, so the validation
lets sequences through. -/
theorem withMetadata_array_accepted :
    isErrB (withMetadata sampleState (.arr false [.num 1])) = false ∧
    (JVal.arr false [.num 1]).isObjectJS = false :=
  ⟨rfl, rfl⟩

/-- Claim C2 (amended) — builder validation is synchronous at each call
(every setter returns its error immediately and `buildB` is a total
function, so nothing is deferred to build): builder creation raises
exactly when the code is not a string with non-empty trim or the type is
outside the fixed category set; `withLevel` raises exactly outside the
severity set; `withReason` raises exactly on non-nullish non-strings;
`withMetadata` raises exactly on `null` or a non-nullish value that is
not of object type — arrays, being `typeof "object"`, are accepted (this
is the amendment; the original claim said every non-mapping raises);
`withOriginalError` raises exactly on non-nullish non-`Error` values
(`undefined` is a no-op); `withTimestamp` raises exactly on values that
are neither `Date`s nor parsable to one. -/
theorem builder_validation_synchronous :
    (∀ (code type : JVal) (now : Int),
      isErrB (createAppErrorBuilder code type now) = true ↔
        ¬((∃ s, code = .str s ∧ jsTrim s ≠ "") ∧
          (∃ t, type = .str t ∧ t ∈ VALID_TYPES))) ∧
    (∀ (st : BuilderState) (l : JVal),
      isErrB (withLevel st l) = true ↔ ¬∃ v, l = .str v ∧ v ∈ VALID_LEVELS) ∧
    (∀ (st : BuilderState) (r : JVal),
      isErrB (withReason st r) = (!r.nullish && !r.typeofString)) ∧
    (∀ (st : BuilderState) (m : JVal),
      isErrB (withMetadata st m) = true ↔
        (m = .null ∨ (m.nullish = false ∧ m.typeofObject = false))) ∧
    (∀ (st : BuilderState) (e : JVal),
      isErrB (withOriginalError st e) = true ↔
        (e ≠ .undef ∧ e ≠ .null ∧ e.isErrorInst = false)) ∧
    (∀ (st : BuilderState) (t : JVal),
      isErrB (withTimestamp st t) = true ↔
        (t.isDate = false ∧ jsDateParseVal t = none)) :=
  ⟨createErr_iff, withLevel_isErr_iff, withReason_isErr, withMetadata_isErr_iff,
   withOriginalError_isErr_iff, withTimestamp_isErr_iff⟩

/-- Witness for C2 (amended): every raise from the spec's validation list
happens at concrete inputs. -/
theorem builder_validation_synchronous_witness :
    isErrB (createAppErrorBuilder (.str "") (.str "network") 0) = true ∧
    isErrB (createAppErrorBuilder (.str "X") (.str "not-a-real-type") 0) = true ∧
    isErrB (withLevel sampleState (.str "bogus")) = true ∧
    isErrB (withReason sampleState (.num 42)) = true ∧
    isErrB (withMetadata sampleState .null) = true ∧
    isErrB (withOriginalError sampleState (JVal.mkObj [("message", .str "x")])) = true ∧
    isErrB (withTimestamp sampleState (.str "not-a-date")) = true :=
  ⟨(builder_validation_synchronous.1 (.str "") (.str "network") 0).mpr
      (by rintro ⟨⟨s, hs, hne⟩, _⟩; cases hs; exact hne rfl),
   (builder_validation_synchronous.1 (.str "X") (.str "not-a-real-type") 0).mpr
      (by rintro ⟨_, ⟨t, ht, hmem⟩⟩; cases ht; revert hmem; decide),
   (builder_validation_synchronous.2.1 sampleState (.str "bogus")).mpr
      (by rintro ⟨v, hv, hmem⟩; cases hv; revert hmem; decide),
   (builder_validation_synchronous.2.2.1 sampleState (.num 42)).trans rfl,
   (builder_validation_synchronous.2.2.2.1 sampleState .null).mpr (Or.inl rfl),
   (builder_validation_synchronous.2.2.2.2.1 sampleState
      (JVal.mkObj [("message", .str "x")])).mpr ⟨by simp [JVal.mkObj], by simp [JVal.mkObj], rfl⟩,
   (builder_validation_synchronous.2.2.2.2.2 sampleState (.str "not-a-date")).mpr
      ⟨rfl, by decide⟩⟩

theorem dm_obj_obj (c1 c2 : JClass) (f1 f2 : Bool) (tf sf : List (String × JVal)) :
    deepMerge (.obj c1 f1 tf) (.obj c2 f2 sf) = .obj .plain false (mergeInto tf tf sf) := by
  simp [deepMerge]

theorem mi_nil (tf acc : List (String × JVal)) : mergeInto tf acc [] = acc := by
  rw [mergeInto]

theorem mi_cons (tf acc : List (String × JVal)) (k : String) (sv : JVal)
    (rest : List (String × JVal)) :
    mergeInto tf acc ((k, sv) :: rest) =
      mergeInto tf (setKey acc k (mergeValue (lookupField tf k) sv)) rest := by
  rw [mergeInto, mergeValue]

theorem mergeValue_undef (sv : JVal) : mergeValue .undef sv = mergeAbsent sv := by
  simp [mergeValue, mergeAbsent, JVal.isArr, JVal.isObjectJS]

theorem lookup_cons (k1 k : String) (v : JVal) (fs : List (String × JVal)) :
    lookupField ((k1, v) :: fs) k = if k1 == k then v else lookupField fs k := by
  by_cases h : (k1 == k) = true <;> simp [lookupField, List.find?, h]

theorem lookup_not_mem (k : String) (fs : List (String × JVal)) (h : k ∉ keysOf fs) :
    lookupField fs k = .undef := by
  induction fs with
  | nil => rfl
  | cons p rest ih =>
    obtain ⟨k1, v⟩ := p
    simp [keysOf] at h
    rw [lookup_cons]
    have : (k1 == k) = false := by simpa using fun he => h.1 he.symm
    simp [this]
    exact ih (by simp [keysOf]; exact fun m => h.2 m)

theorem setKey_absent (fs : List (String × JVal)) (k : String) (v : JVal)
    (h : k ∉ keysOf fs) : setKey fs k v = fs ++ [(k, v)] := by
  have hany : fs.any (fun p => p.1 == k) = false := by
    rw [List.any_eq_false]
    intro p hp
    simp only [beq_iff_eq]
    intro hpk
    exact h (hpk ▸ List.mem_map_of_mem Prod.fst hp)
  simp [setKey, hany]

theorem lookup_append_right (fs : List (String × JVal)) (k : String) (v : JVal)
    (h : k ∉ keysOf fs) : lookupField (fs ++ [(k, v)]) k = v := by
  induction fs with
  | nil => simp [lookupField, List.find?]
  | cons p rest ih =>
    obtain ⟨k1, v1⟩ := p
    simp [keysOf] at h
    rw [List.cons_append, lookup_cons]
    have hne : (k1 == k) = false := by simpa using fun he => h.1 he.symm
    simp [hne]
    exact ih (by simp [keysOf]; exact fun m => h.2 m)

theorem lookup_map_replace (fs : List (String × JVal)) (k : String) (v : JVal)
    (hany : fs.any (fun p => p.1 == k) = true) :
    lookupField (fs.map (fun p => if p.1 == k then (k, v) else p)) k = v := by
  induction fs with
  | nil => simp at hany
  | cons p rest ih =>
    obtain ⟨k1, v1⟩ := p
    by_cases h : (k1 == k) = true
    · simp only [List.map_cons, h, if_pos]
      rw [lookup_cons]
      simp
    · simp only [List.map_cons, h, if_neg, Bool.not_eq_true]
      rw [lookup_cons, if_neg h]
      simp only [List.any_cons] at hany
      rw [show (k1 == k) = false from by simpa using h] at hany
      simp at hany
      obtain ⟨x, hx⟩ := hany
      exact ih (List.any_eq_true.mpr ⟨(k, x), hx, by simp⟩)

theorem lookup_setKey_self (fs : List (String × JVal)) (k : String) (v : JVal) :
    lookupField (setKey fs k v) k = v := by
  by_cases hany : fs.any (fun p => p.1 == k) = true
  · simp only [setKey, hany, if_pos]
    exact lookup_map_replace fs k v hany
  · have hmem : k ∉ keysOf fs := by
      intro hk
      obtain ⟨p, hp, hpk⟩ := List.mem_map.mp hk
      exact hany (List.any_eq_true.mpr ⟨p, hp, by simp [hpk]⟩)
    rw [setKey_absent fs k v hmem]
    exact lookup_append_right fs k v hmem

theorem lookup_map_replace_ne (fs : List (String × JVal)) (k' k : String) (v : JVal)
    (hne : k' ≠ k) :
    lookupField (fs.map (fun p => if p.1 == k' then (k', v) else p)) k = lookupField fs k := by
  induction fs with
  | nil => rfl
  | cons p rest ih =>
    obtain ⟨k1, v1⟩ := p
    by_cases h : (k1 == k') = true
    · have hk1 : k1 = k' := by simpa using h
      simp only [List.map_cons, h, if_pos]
      rw [lookup_cons, lookup_cons]
      have h1 : (k' == k) = false := by simpa using hne
      have h2 : (k1 == k) = false := by simpa [hk1] using hne
      simp only [h1, h2]
      simpa using ih
    · simp only [List.map_cons, h, if_neg, Bool.not_eq_true]
      rw [lookup_cons, lookup_cons]
      by_cases h3 : (k1 == k) = true
      · simp [h3]
      · simp [h3]
        simpa using ih

theorem lookup_append_ne (fs : List (String × JVal)) (k' k : String) (v : JVal)
    (hne : k' ≠ k) :
    lookupField (fs ++ [(k', v)]) k = lookupField fs k := by
  induction fs with
  | nil =>
    simp [lookupField, List.find?, show (k' == k) = false from by simpa using hne]
  | cons p rest ih =>
    obtain ⟨k1, v1⟩ := p
    rw [List.cons_append, lookup_cons, lookup_cons]
    by_cases h3 : (k1 == k) = true
    · simp [h3]
    · simp [h3]
      simpa using ih

theorem lookup_setKey_ne (fs : List (String × JVal)) (k' k : String) (v : JVal)
    (hne : k' ≠ k) : lookupField (setKey fs k' v) k = lookupField fs k := by
  by_cases hany : fs.any (fun p => p.1 == k') = true
  · simp only [setKey, hany, if_pos]
    exact lookup_map_replace_ne fs k' k v hne
  · have hany' : fs.any (fun p => p.1 == k') = false := by
      cases h : fs.any (fun p => p.1 == k') with
      | true => exact absurd h hany
      | false => rfl
    simp only [setKey, hany', Bool.false_eq_true, if_false]
    exact lookup_append_ne fs k' k v hne

theorem keysOf_setKey_present (fs : List (String × JVal)) (k : String) (v : JVal)
    (hany : fs.any (fun p => p.1 == k) = true) :
    keysOf (setKey fs k v) = keysOf fs := by
  simp only [setKey, hany, if_pos, keysOf, List.map_map]
  apply List.map_congr_left
  intro p _
  by_cases h : (p.1 == k) = true
  · simp [Function.comp, h]
    exact (eq_of_beq h).symm
  · simp [Function.comp, h]

theorem keysOf_setKey_absent (fs : List (String × JVal)) (k : String) (v : JVal)
    (h : k ∉ keysOf fs) : keysOf (setKey fs k v) = keysOf fs ++ [k] := by
  rw [setKey_absent fs k v h]
  simp [keysOf]

theorem setKey_mem (fs : List (String × JVal)) (k : String) (v : JVal)
    (p : String × JVal) (hp : p ∈ setKey fs k v) : p ∈ fs ∨ p = (k, v) := by
  by_cases hany : fs.any (fun p => p.1 == k) = true
  · simp only [setKey, hany, if_pos] at hp
    obtain ⟨q, hq, hqp⟩ := List.mem_map.mp hp
    by_cases h : (q.1 == k) = true
    · right
      rw [← hqp]
      simp [h]
    · left
      rw [← hqp]
      simpa [h] using hq
  · have hany' : fs.any (fun p => p.1 == k) = false := by
      cases h : fs.any (fun p => p.1 == k) with
      | true => exact absurd h hany
      | false => rfl
    simp only [setKey, hany', Bool.false_eq_true, if_false] at hp
    rcases List.mem_append.mp hp with h | h
    · exact Or.inl h
    · exact Or.inr (by simpa using h)

theorem mi_lookup_notin (tf : List (String × JVal)) (k : String) :
    ∀ (sf acc : List (String × JVal)), k ∉ keysOf sf →
      lookupField (mergeInto tf acc sf) k = lookupField acc k := by
  intro sf
  induction sf with
  | nil => intro acc _; rw [mi_nil]
  | cons p rest ih =>
    intro acc hk
    obtain ⟨k1, sv⟩ := p
    simp [keysOf] at hk
    rw [mi_cons, ih _ (by simp [keysOf]; exact fun m => hk.2 m)]
    exact lookup_setKey_ne acc k1 k _ (fun he => hk.1 he.symm)

theorem mi_lookup_mem (tf : List (String × JVal)) (k : String) :
    ∀ (sf acc : List (String × JVal)), (keysOf sf).Nodup → k ∈ keysOf sf →
      lookupField (mergeInto tf acc sf) k =
        mergeValue (lookupField tf k) (lookupField sf k) := by
  intro sf
  induction sf with
  | nil => intro acc _ hk; simp [keysOf] at hk
  | cons p rest ih =>
    intro acc hnd hk
    obtain ⟨k1, sv⟩ := p
    rw [mi_cons]
    simp only [keysOf, List.map_cons, List.nodup_cons] at hnd
    by_cases he : k1 = k
    · subst he
      rw [mi_lookup_notin tf k1 rest _ (by simpa [keysOf] using hnd.1)]
      rw [lookup_setKey_self, lookup_cons]
      simp
    · rw [ih _ hnd.2 (by simp [keysOf] at hk ⊢; tauto)]
      rw [lookup_cons]
      simp [show (k1 == k) = false from by simpa using he]

theorem keysOf_cons (k1 : String) (v : JVal) (rest : List (String × JVal)) :
    keysOf ((k1, v) :: rest) = k1 :: keysOf rest := rfl

theorem keysOf_append (a b : List (String × JVal)) :
    keysOf (a ++ b) = keysOf a ++ keysOf b := by simp [keysOf]

theorem mi_disjoint (tf : List (String × JVal)) :
    ∀ (sf acc : List (String × JVal)), (keysOf sf).Nodup →
      (∀ k ∈ keysOf sf, k ∉ keysOf tf) → (∀ k ∈ keysOf sf, k ∉ keysOf acc) →
      mergeInto tf acc sf = acc ++ mapMergeAbsent sf := by
  intro sf
  induction sf with
  | nil => intro acc _ _ _; rw [mi_nil]; simp [mapMergeAbsent]
  | cons p rest ih =>
    intro acc hnd htf hacc
    obtain ⟨k1, sv⟩ := p
    rw [keysOf_cons] at hnd htf hacc
    have hnd' := List.nodup_cons.mp hnd
    have hk1tf : k1 ∉ keysOf tf := htf k1 (List.mem_cons_self _ _)
    have hk1acc : k1 ∉ keysOf acc := hacc k1 (List.mem_cons_self _ _)
    rw [mi_cons, lookup_not_mem k1 tf hk1tf, mergeValue_undef,
      setKey_absent acc k1 _ hk1acc]
    rw [ih (acc ++ [(k1, mergeAbsent sv)]) hnd'.2
      (fun k hk => htf k (List.mem_cons_of_mem _ hk))
      (fun k hk => by
        rw [keysOf_append]
        intro hmem
        rcases List.mem_append.mp hmem with h | h
        · exact hacc k (List.mem_cons_of_mem _ hk) h
        · have hkk1 : k = k1 := by simpa [keysOf] using h
          exact hnd'.1 (hkk1 ▸ hk))]
    simp [mapMergeAbsent]

theorem mi_nodup (tf : List (String × JVal)) :
    ∀ (sf acc : List (String × JVal)), (keysOf acc).Nodup →
      (keysOf (mergeInto tf acc sf)).Nodup := by
  intro sf
  induction sf with
  | nil => intro acc h; rw [mi_nil]; exact h
  | cons p rest ih =>
    intro acc h
    obtain ⟨k1, sv⟩ := p
    rw [mi_cons]
    apply ih
    by_cases hany : acc.any (fun q => q.1 == k1) = true
    · rw [keysOf_setKey_present acc k1 _ hany]
      exact h
    · have hmem : k1 ∉ keysOf acc := by
        intro hk
        obtain ⟨q, hq, hqk⟩ := List.mem_map.mp hk
        exact hany (List.any_eq_true.mpr ⟨q, hq, by simp [hqk]⟩)
      rw [keysOf_setKey_absent acc k1 _ hmem]
      rw [List.nodup_append]
      refine ⟨h, List.nodup_singleton k1, ?_⟩
      intro a ha hb
      rw [List.mem_singleton] at hb
      exact hmem (hb ▸ ha)

theorem mi_mem (tf : List (String × JVal)) :
    ∀ (sf acc : List (String × JVal)) (p : String × JVal),
      p ∈ mergeInto tf acc sf →
      p ∈ acc ∨ ∃ q ∈ sf, p.2 = mergeValue (lookupField tf q.1) q.2 := by
  intro sf
  induction sf with
  | nil => intro acc p hp; rw [mi_nil] at hp; exact Or.inl hp
  | cons q rest ih =>
    intro acc p hp
    obtain ⟨k1, sv⟩ := q
    rw [mi_cons] at hp
    rcases ih _ p hp with hacc | ⟨q', hq', hval⟩
    · rcases setKey_mem _ _ _ _ hacc with h | h
      · exact Or.inl h
      · exact Or.inr ⟨(k1, sv), List.mem_cons_self _ _, by rw [h]⟩
    · exact Or.inr ⟨q', List.mem_cons_of_mem _ hq', hval⟩

theorem sizeOf_val_lt (c : JClass) (f : Bool) (vf : List (String × JVal))
    (q : String × JVal) (h : q ∈ vf) : sizeOf q.2 < sizeOf (JVal.obj c f vf) := by
  have h1 := List.sizeOf_lt_of_mem h
  obtain ⟨a, b⟩ := q
  simp at h1 ⊢
  omega

theorem mergeAbsent_idem (v : JVal) : mergeAbsent (mergeAbsent v) = mergeAbsent v := by
  match v with
  | .obj c f vf =>
    have h1 : mergeAbsent (.obj c f vf) = .obj .plain false (mergeInto [] [] vf) := by
      simp [mergeAbsent, JVal.isObjectJS, JVal.mkObj, dm_obj_obj]
    rw [h1]
    have h2 : mergeAbsent (.obj .plain false (mergeInto [] [] vf)) =
        .obj .plain false (mergeInto [] [] (mergeInto [] [] vf)) := by
      simp [mergeAbsent, JVal.isObjectJS, JVal.mkObj, dm_obj_obj]
    rw [h2]
    congr 1
    have hnodup : (keysOf (mergeInto [] [] vf)).Nodup :=
      mi_nodup [] vf [] (by simp [keysOf])
    rw [mi_disjoint [] (mergeInto [] [] vf) [] hnodup
      (by intro k _; simp [keysOf]) (by intro k _; simp [keysOf])]
    rw [List.nil_append]
    have hfix : ∀ p ∈ mergeInto [] [] vf, mergeAbsent p.2 = p.2 := by
      intro p hp
      rcases mi_mem [] vf [] p hp with habs | ⟨q, hq, hval⟩
      · simp at habs
      · rw [hval, show lookupField [] q.1 = .undef from rfl, mergeValue_undef]
        exact mergeAbsent_idem q.2
    rw [mapMergeAbsent]
    calc (mergeInto [] [] vf).map (fun p => (p.1, mergeAbsent p.2))
        = (mergeInto [] [] vf).map id := by
          apply List.map_congr_left
          intro p hp
          rw [hfix p hp]
          rfl
      _ = mergeInto [] [] vf := List.map_id _
  | .date d =>
    simp [mergeAbsent, JVal.isObjectJS, JVal.mkObj, deepMerge, JVal.spreadFields, mi_nil]
  | .null => rfl
  | .undef => rfl
  | .bool b => rfl
  | .num n => rfl
  | .str s => rfl
  | .arr f xs => rfl
termination_by sizeOf v
decreasing_by
  exact Nat.lt_of_lt_of_le (sizeOf_val_lt c f vf q hq) (le_refl _)

theorem keysOf_mapMergeAbsent (fs : List (String × JVal)) :
    keysOf (mapMergeAbsent fs) = keysOf fs := by
  simp [keysOf, mapMergeAbsent]

theorem mapMergeAbsent_idem (fs : List (String × JVal)) :
    mapMergeAbsent (mapMergeAbsent fs) = mapMergeAbsent fs := by
  simp only [mapMergeAbsent, List.map_map]
  apply List.map_congr_left
  intro p _
  simp [Function.comp, mergeAbsent_idem]

theorem deepMerge_assoc_core (ca cb cc : JClass) (fa fb fc : Bool)
    (af bf cf : List (String × JVal))
    (hndb : (keysOf bf).Nodup) (hndc : (keysOf cf).Nodup)
    (hab : ∀ k ∈ keysOf bf, k ∉ keysOf af)
    (hac : ∀ k ∈ keysOf cf, k ∉ keysOf af)
    (hbc : ∀ k ∈ keysOf cf, k ∉ keysOf bf) :
    deepMerge (deepMerge (.obj ca fa af) (.obj cb fb bf)) (.obj cc fc cf) =
      deepMerge (.obj ca fa af) (deepMerge (.obj cb fb bf) (.obj cc fc cf)) := by
  have cond1 : ∀ k ∈ keysOf cf, k ∉ keysOf (af ++ mapMergeAbsent bf) := by
    intro k hk
    rw [keysOf_append, keysOf_mapMergeAbsent]
    intro hmem
    rcases List.mem_append.mp hmem with h | h
    · exact hac k hk h
    · exact hbc k hk h
  have hnd2 : (keysOf (bf ++ mapMergeAbsent cf)).Nodup := by
    rw [keysOf_append, keysOf_mapMergeAbsent, List.nodup_append]
    exact ⟨hndb, hndc, fun a ha hb => hbc a hb ha⟩
  have cond2 : ∀ k ∈ keysOf (bf ++ mapMergeAbsent cf), k ∉ keysOf af := by
    intro k hk
    rw [keysOf_append, keysOf_mapMergeAbsent] at hk
    rcases List.mem_append.mp hk with h | h
    · exact hab k h
    · exact hac k h
  simp only [dm_obj_obj]
  rw [mi_disjoint af bf af hndb hab hab]
  rw [mi_disjoint bf cf bf hndc hbc hbc]
  rw [mi_disjoint (af ++ mapMergeAbsent bf) cf (af ++ mapMergeAbsent bf) hndc cond1 cond1]
  rw [mi_disjoint af (bf ++ mapMergeAbsent cf) af hnd2 cond2 cond2]
  congr 1
  rw [show mapMergeAbsent (bf ++ mapMergeAbsent cf) =
      mapMergeAbsent bf ++ mapMergeAbsent (mapMergeAbsent cf) from by
    simp [mapMergeAbsent]]
  rw [mapMergeAbsent_idem, List.append_assoc]

theorem getField_obj (c : JClass) (f : Bool) (fs : List (String × JVal)) (k : String) :
    (JVal.obj c f fs).getField k = lookupField fs k := rfl

theorem deepMerge_concat_core (c1 c2 : JClass) (f1 f2 : Bool)
    (tf sf : List (String × JVal)) (k : String) (ft fs' : Bool)
    (txs sxs : List JVal) (hnd : (keysOf sf).Nodup)
    (htk : lookupField tf k = .arr ft txs) (hsk : lookupField sf k = .arr fs' sxs) :
    (deepMerge (.obj c1 f1 tf) (.obj c2 f2 sf)).getField k = .arr false (txs ++ sxs) := by
  rw [dm_obj_obj, getField_obj]
  have hk : k ∈ keysOf sf := by
    by_contra hk
    rw [lookup_not_mem k sf hk] at hsk
    exact absurd hsk (by simp)
  rw [mi_lookup_mem tf k sf tf hnd hk, htk, hsk]
  simp [mergeValue, JVal.isArr, JVal.arrElems]

/-- Claim C5 — deep-merge associativity for disjoint keys, and sequence
concatenation: for mappings whose top-level keys are pairwise disjoint
(and well-formed, i.e. duplicate-free, as JS objects always are),
`deepMerge(deepMerge(a,b),c) = deepMerge(a,deepMerge(b,c))`; when both
arguments hold an array at the same key, the merged value is the
target's elements followed by the source's, with no de-duplication; and
concretely merging the mapping with `x:[1,2]` and the mapping with
`x:[3]` yields `x = [1,2,3]`. -/
theorem deepMerge_assoc_and_concat :
    (∀ (ca cb cc : JClass) (fa fb fc : Bool) (af bf cf : List (String × JVal)),
      (keysOf bf).Nodup → (keysOf cf).Nodup →
      (∀ k ∈ keysOf bf, k ∉ keysOf af) → (∀ k ∈ keysOf cf, k ∉ keysOf af) →
      (∀ k ∈ keysOf cf, k ∉ keysOf bf) →
      deepMerge (deepMerge (.obj ca fa af) (.obj cb fb bf)) (.obj cc fc cf) =
        deepMerge (.obj ca fa af) (deepMerge (.obj cb fb bf) (.obj cc fc cf))) ∧
    (∀ (c1 c2 : JClass) (f1 f2 : Bool) (tf sf : List (String × JVal)) (k : String)
      (ft fs' : Bool) (txs sxs : List JVal), (keysOf sf).Nodup →
      lookupField tf k = .arr ft txs → lookupField sf k = .arr fs' sxs →
      (deepMerge (.obj c1 f1 tf) (.obj c2 f2 sf)).getField k = .arr false (txs ++ sxs)) ∧
    (deepMerge (JVal.mkObj [("x", .arr false [.num 1, .num 2])])
        (JVal.mkObj [("x", .arr false [.num 3])])).getField "x" =
      .arr false [.num 1, .num 2, .num 3] :=
  ⟨deepMerge_assoc_core, deepMerge_concat_core,
   by simp [deepMerge, mergeInto, lookupField, setKey, JVal.mkObj, JVal.isArr,
     JVal.arrElems, JVal.isObjectJS, JVal.getField, List.find?]⟩

/-- Witness for C5 at concrete disjoint mappings and a concrete
array-valued key. -/
theorem deepMerge_assoc_and_concat_witness :
    deepMerge (deepMerge (.obj .plain false [("p", .num 1)])
        (.obj .plain false [("q", .num 2)])) (.obj .plain false [("r", .num 3)]) =
      deepMerge (.obj .plain false [("p", .num 1)])
        (deepMerge (.obj .plain false [("q", .num 2)]) (.obj .plain false [("r", .num 3)])) ∧
    (deepMerge (.obj .plain false [("x", .arr false [.num 1, .num 2])])
        (.obj .plain false [("x", .arr false [.num 3])])).getField "x" =
      .arr false [.num 1, .num 2, .num 3] :=
  ⟨deepMerge_assoc_and_concat.1 .plain .plain .plain false false false
      [("p", .num 1)] [("q", .num 2)] [("r", .num 3)]
      (by decide) (by decide) (by decide) (by decide) (by decide),
   deepMerge_assoc_and_concat.2.1 .plain .plain false false
      [("x", .arr false [.num 1, .num 2])] [("x", .arr false [.num 3])] "x"
      false false [.num 1, .num 2] [.num 3] (by decide) rfl rfl⟩

/-- Counterexample for C6: in the identity-annotated model (fresh
counter starting at 10, so every tag below 10 names a node of the
inputs), the result of `deepMerge` contains the very mapping node (tag
1) that sits inside `target` — the shallow copy `\x7b...target\x7d` aliases
target's nested mappings, so mutating that input mapping after the call
would change the result, contradicting the claim that every mapping in
the returned value is a fresh object graph. -/
theorem deepMerge_aliases_target_nested_mapping :
    (deepMergeAlloc tgtC6 srcC6 10).1 =
      HVal.obj 10 [("a", HVal.obj 1 [("b", HVal.prim 1)]), ("c", HVal.prim 2)] ∧
    1 ∈ objIdsH tgtC6 ∧
    1 ∈ objIdsH (deepMergeAlloc tgtC6 srcC6 10).1 ∧
    1 < 10 := by
  refine ⟨?_, ?_, ?_, by omega⟩
  · simp [tgtC6, srcC6, deepMergeAlloc, mergeIntoAlloc, lookupFieldH, setKeyH,
      HVal.isArrH, HVal.isObjectH, HVal.arrElemsH]
  · simp [tgtC6, objIdsH, objIdsFieldsH, objIdsListH]
  · simp [tgtC6, srcC6, deepMergeAlloc, mergeIntoAlloc, lookupFieldH, setKeyH,
      HVal.isArrH, HVal.isObjectH, HVal.arrElemsH, objIdsH, objIdsFieldsH, objIdsListH]

/-- Claim C6 (amended) — `deepMerge` never mutates its inputs (it is a
pure function of them in this model), and whenever the source is a
mapping the returned mapping is itself a new object (its identity tag is
fresh, at or above the allocation counter).  The rest of the original
claim fails: nested mappings carried over from the target's
un-overwritten keys (and values inside sequences) stay aliased with the
inputs — see the counterexample. -/
theorem deepMerge_fresh_top_level (t s : HVal) (n : Nat) (hs : s.isObjectH = true) :
    (deepMergeAlloc t s n).1.isObjectH = true ∧
    n ≤ topIdH (deepMergeAlloc t s n).1 := by
  cases s with
  | obj si sf =>
    cases t with
    | obj ti tf => simp [deepMergeAlloc, HVal.isObjectH, topIdH]
    | undef => simp [deepMergeAlloc, HVal.isObjectH, topIdH]
    | prim m => simp [deepMergeAlloc, HVal.isObjectH, topIdH]
    | arr ai axs => simp [deepMergeAlloc, HVal.isObjectH, topIdH]
  | undef => simp [HVal.isObjectH] at hs
  | prim m => simp [HVal.isObjectH] at hs
  | arr ai axs => simp [HVal.isObjectH] at hs

/-- Witness for C6 (amended) at the concrete merge of the
counterexample's inputs. -/
theorem deepMerge_fresh_top_level_witness :
    (deepMergeAlloc tgtC6 srcC6 10).1.isObjectH = true ∧
    10 ≤ topIdH (deepMergeAlloc tgtC6 srcC6 10).1 :=
  deepMerge_fresh_top_level tgtC6 srcC6 10 rfl
